import Mathlib

/-!
Shallow embedding of the `hcmc-cam-snapshotter` repository
(`src/hcmc_sixcam_capture.py` and `src/export_images.py`) and proofs about it.

Conventions of the embedding:
* Python `str` values are Lean `String`s (`List Char` where recursion is easier);
  ASCII-level behaviour of `str.lower`, `str.isalnum`, `str.strip` is modelled
  by the corresponding `Char` predicates of Lean.
* Python byte strings are `List Nat`.
* Python `None` is `Option.none`; Python truthiness of optional strings / bytes
  is modelled explicitly (`none` and the empty value are falsy).
* External libraries (PIL, hashlib, unicodedata, the `datetime` parsers and
  `base64` decoding used by the exporter) are parameters of the embedded
  functions: the repository calls into them through a fixed interface, so each
  theorem is stated for an arbitrary implementation of that interface and each
  witness instantiates it with a small concrete one.
* Functions that can raise a Python exception return `Option`/`Except`;
  `none`/`.error` is the exception propagating to the caller.
-/

/-! ## Python string helpers -/

/-- Truthiness of an optional Python string: `None` and `""` are falsy. -/
def optStrTruthy : Option String → Bool
  | none => false
  | some s => s ≠ ""

/-- Truthiness of an optional Python byte string: `None` and `b""` are falsy. -/
def optBytesTruthy : Option (List Nat) → Bool
  | none => false
  | some b => b ≠ []

/-- Python `a or dflt` for an optional string `a`, producing a plain string. -/
def getOrStr (a : Option String) (dflt : String) : String :=
  if optStrTruthy a then a.getD "" else dflt

/-- Python `a or b` on optional strings (keeps `a` when truthy). -/
def pyOrOpt (a b : Option String) : Option String :=
  if optStrTruthy a then a else b

/-- Bool test: `pre` is a prefix of `s` (Python `str.startswith` on lists). -/
def isPrefixOfL : List Char → List Char → Bool
  | [], _ => true
  | _ :: _, [] => false
  | a :: as, b :: bs => a = b && isPrefixOfL as bs

/-- Bool test: `pat` occurs as a contiguous substring of `s` (Python `in`). -/
def containsSubL (pat : List Char) : List Char → Bool
  | [] => isPrefixOfL pat []
  | c :: t => isPrefixOfL pat (c :: t) || containsSubL pat t

/-- Python `pat in s` on strings. -/
def strContains (s pat : String) : Bool :=
  containsSubL pat.toList s.toList

/-- Python `s.endswith(suffix)`. -/
def strEndsWith (s suffix : String) : Bool :=
  isPrefixOfL suffix.toList.reverse s.toList.reverse

/-- Python `s.lower()` (ASCII case mapping, as used on content types / URLs). -/
def lowerStr (s : String) : String :=
  String.mk (s.toList.map Char.toLower)

/-- Python `s.strip()` on a character list (drop surrounding whitespace). -/
def pyStripWs (l : List Char) : List Char :=
  ((l.dropWhile Char.isWhitespace).reverse.dropWhile Char.isWhitespace).reverse

/-- Python `s.strip(chars)` on a character list. -/
def pyStripChars (cs : List Char) (l : List Char) : List Char :=
  ((l.dropWhile (· ∈ cs)).reverse.dropWhile (· ∈ cs)).reverse

/-- Python `s[:n]`. -/
def strTake (s : String) (n : Nat) : String :=
  String.mk (s.toList.take n)

/-- Modelled from `urllib.parse`: everything after the first `"://"`, or `none`. -/
def dropThroughSchemeSep : List Char → Option (List Char)
  | [] => none
  | ':' :: '/' :: '/' :: t => some t
  | _ :: t => dropThroughSchemeSep t

/-- Modelled from `urllib.parse.urlparse(u).path` for the http(s)-style URLs the
capture loop handles: strip `scheme://netloc`, cut query and fragment. -/
def urlPath (u : String) : String :=
  match dropThroughSchemeSep u.toList with
  | none => String.mk (u.toList.takeWhile (fun c => c ≠ '?' && c ≠ '#'))
  | some rest =>
    String.mk ((rest.dropWhile (fun c => c ≠ '/')).takeWhile (fun c => c ≠ '?' && c ≠ '#'))

/-! ## `slugify` (src/hcmc_sixcam_capture.py lines 41-52)

`unicodedata.normalize("NFKD", ·)` and `unicodedata.combining` are external
library calls and appear as the parameters `nfkd` / `combining`. -/

/-- One pass of Python `s.replace("__", "_")`: left-to-right, non-overlapping. -/
def replaceDunder : List Char → List Char
  | [] => []
  | [c] => [c]
  | c1 :: c2 :: t =>
    if c1 = '_' && c2 = '_' then '_' :: replaceDunder t
    else c1 :: replaceDunder (c2 :: t)

/-- Python `"__" in s`. -/
def containsDunder : List Char → Bool
  | c1 :: c2 :: t => (c1 = '_' && c2 = '_') || containsDunder (c2 :: t)
  | _ => false

/-- The `while "__" in s: s = s.replace("__", "_")` loop, run with an explicit
fuel bound; each iteration strictly shortens the list, so `l.length + 1` steps
always reach the fixpoint (shown in `collapseDundersFuel_no_dunder`). -/
def collapseDundersFuel : Nat → List Char → List Char
  | 0, l => l
  | fuel + 1, l => if containsDunder l then collapseDundersFuel fuel (replaceDunder l) else l

/-- The fully-run underscore-collapsing loop of `slugify`. -/
def collapseDunders (l : List Char) : List Char :=
  collapseDundersFuel (l.length + 1) l

/-- Lines 46-52 of `slugify` after the `unicodedata` steps:
`strip().lower()`, the keep-or-underscore character substitution
(`isalnum` or one of `"._- "`), `replace(" ", "_")`, the `"__"`-collapsing
loop, and the final `strip("._-")`. -/
def slugPipeline (l1 : List Char) : List Char :=
  pyStripChars ['.', '_', '-'] (collapseDunders
    ((((pyStripWs l1).map Char.toLower).map
      (fun ch => if ch.isAlphanum || ch ∈ ['.', '_', '-', ' '] then ch else '_')).map
      (fun ch => if ch = ' ' then '_' else ch)))

/-- `slugify` from src/hcmc_sixcam_capture.py, parameterized by the
`unicodedata` collaborators (NFKD normalization, then dropping combining
characters, then `slugPipeline`, then the `or "nocode"` fallback). -/
def slugify (nfkd : List Char → List Char) (combining : Char → Bool)
    (text : Option String) : String :=
  match text with
  | none => "nocode"
  | some t =>
    if t = "" then "nocode"
    else
      let l6 := slugPipeline ((nfkd t.toList).filter (fun c => !combining c))
      if l6 = [] then "nocode" else String.mk l6

example : slugify id (fun _ => false) (some "Hello  World!") = "hello_world" := by decide
example : slugify id (fun _ => false) none = "nocode" := by decide
example : slugify id (fun _ => false) (some "__._") = "nocode" := by decide

/-! ## PIL interface and `force_jpeg_if_gif` (src/hcmc_sixcam_capture.py 63-110) -/

/-- The slice of the PIL `Image` API used by `force_jpeg_if_gif`, over an
abstract image type `Img`. `openImg` returns `none` when `Image.open` (or the
subsequent size read) raises, i.e. when the bytes are not parseable as an
image. -/
structure PILOps (Img : Type) where
  openImg : List Nat → Option Img
  mode : Img → String
  size : Img → Nat × Nat
  seek0 : Img → Img
  convert : Img → String → Img
  newRGB : Nat × Nat → Nat × Nat × Nat → Img
  splitLast : Img → List Nat
  paste : Img → Img → Option (List Nat) → Img
  saveJPEG : Img → Nat → Bool → List Nat

/-- The `is_gif` classification chain of `force_jpeg_if_gif`:
content-type contains "gif", else byte prefix `b"GIF8"`, else URL path ends in
`.gif`. -/
def isGifClassified (imgBytes : List Nat) (contentType : Option String)
    (urlHint : Option String) : Bool :=
  if optStrTruthy contentType && strContains (lowerStr (contentType.getD "")) "gif" then
    true
  else if imgBytes.take 4 = [71, 73, 70, 56] then
    true
  else if optStrTruthy urlHint && strEndsWith (lowerStr (urlPath (urlHint.getD ""))) ".gif" then
    true
  else
    false

/-- The composited still frame built in the animated branch of
`force_jpeg_if_gif` before JPEG encoding: alpha/palette modes are pasted onto
an opaque white `RGB` background (palette frames converted to `RGBA` first, an
`RGBA` alpha band used as paste mask), other modes converted to `RGB`. -/
def gifFlattened {Img : Type} (ops : PILOps Img) (im1 : Img) : Img :=
  if ops.mode im1 = "RGBA" || ops.mode im1 = "LA" || ops.mode im1 = "P" then
    let bg := ops.newRGB (ops.size im1) (255, 255, 255)
    let im := if ops.mode im1 = "P" then ops.convert im1 "RGBA" else im1
    ops.paste bg im (if ops.mode im = "RGBA" then some (ops.splitLast im) else none)
  else
    ops.convert im1 "RGB"

/-- `force_jpeg_if_gif` from src/hcmc_sixcam_capture.py. Result `none` models
the uncaught exception raised when the animated branch cannot open the bytes;
the non-animated branch never raises (its `Image.open` is inside
`try/except`). Result tuple: `(bytes, ext, was_gif, w, h)`. -/
def forceJpegIfGif {Img : Type} (ops : PILOps Img) (imgBytes : List Nat)
    (contentType : Option String) (urlHint : Option String) :
    Option (List Nat × String × Bool × Option Nat × Option Nat) :=
  if isGifClassified imgBytes contentType urlHint = false then
    let wh : Option Nat × Option Nat :=
      match ops.openImg imgBytes with
      | some im => (some (ops.size im).1, some (ops.size im).2)
      | none => (none, none)
    let ext : String :=
      if optStrTruthy contentType then
        let ct := lowerStr (contentType.getD "")
        if strContains ct "png" then ".png"
        else if strContains ct "webp" then ".webp"
        else ".jpg"
      else if optStrTruthy urlHint then
        let p := lowerStr (urlPath (urlHint.getD ""))
        [".jpg", ".jpeg", ".png", ".webp"].foldl
          (fun acc e => if strEndsWith p e then (if e = ".jpeg" then ".jpg" else e) else acc)
          ".jpg"
      else ".jpg"
    some (imgBytes, ext, false, wh.1, wh.2)
  else
    match ops.openImg imgBytes with
    | none => none
    | some im0 =>
      let im2 := gifFlattened ops (ops.seek0 im0)
      some (ops.saveJPEG im2 90 true, ".jpg", true, some (ops.size im2).1, some (ops.size im2).2)

/-- A trivial concrete PIL instantiation used by witnesses: images are
`(mode, w, h)` triples and every decode fails. -/
def pilNone : PILOps (String × Nat × Nat) :=
  { openImg := fun _ => none
    mode := fun i => i.1
    size := fun i => (i.2.1, i.2.2)
    seek0 := fun i => i
    convert := fun i m => (m, i.2.1, i.2.2)
    newRGB := fun sz _ => ("RGB", sz.1, sz.2)
    splitLast := fun _ => []
    paste := fun bg _ _ => bg
    saveJPEG := fun i q _ => [i.2.1, i.2.2, q] }

/-- A concrete PIL instantiation whose decode always yields a fixed palette
image; used by witnesses for the animated branch. -/
def pilP : PILOps (String × Nat × Nat) :=
  { pilNone with openImg := fun _ => some ("P", 3, 2) }

example : forceJpegIfGif pilNone [1, 2, 3] (some "text/plain") (some "http://h/a.webp") =
    some ([1, 2, 3], ".jpg", false, none, none) := by decide
example : forceJpegIfGif pilNone [1, 2, 3] none (some "http://h/a.webp") =
    some ([1, 2, 3], ".webp", false, none, none) := by decide
example : forceJpegIfGif pilNone [1, 2, 3] none (some "http://h/a.bin") =
    some ([1, 2, 3], ".jpg", false, none, none) := by decide
example : forceJpegIfGif pilNone [71, 73, 70, 56, 9] none none = none := by decide
example : forceJpegIfGif pilP [71, 73, 70, 56, 9] none none =
    some ([3, 2, 90], ".jpg", true, some 3, some 2) := by decide

/-! ## Spec-side extension resolution (for claim C4)

`specResolveExt` follows the words of the spec sentence "resolve extension by
content-type first (`png`→`.png`, `webp`→`.webp`, `jpeg`/`jpg`→`.jpg`),
falling back to the URL's path suffix, falling back to `.jpg`" — the fallback
fires whenever the content-type does not determine an extension. It is a
refinement target, not a translation of the code. -/

/-- The extension determined by the declared content-type per the spec's
mapping, or `none` when the content-type does not determine one. -/
def specCtExt (contentType : Option String) : Option String :=
  if optStrTruthy contentType then
    let ct := lowerStr (contentType.getD "")
    if strContains ct "png" then some ".png"
    else if strContains ct "webp" then some ".webp"
    else if strContains ct "jpeg" || strContains ct "jpg" then some ".jpg"
    else none
  else none

/-- The extension determined by the source URL's path suffix, or `none`. -/
def specUrlExt (urlHint : Option String) : Option String :=
  if optStrTruthy urlHint then
    let p := lowerStr (urlPath (urlHint.getD ""))
    if strEndsWith p ".jpeg" then some ".jpg"
    else if strEndsWith p ".jpg" then some ".jpg"
    else if strEndsWith p ".png" then some ".png"
    else if strEndsWith p ".webp" then some ".webp"
    else none
  else none

/-- Extension resolution following the claim's words: content-type first, URL
path suffix when the content-type does not determine it, then `.jpg`. -/
def specResolveExt (contentType : Option String) (urlHint : Option String) : String :=
  match specCtExt contentType with
  | some e => e
  | none =>
    match specUrlExt urlHint with
    | some e => e
    | none => ".jpg"

/-- The extension the code actually resolves in the non-animated branch
(content-type when truthy, else URL suffix loop, else `.jpg`) — the amended
reading of claim C4. -/
def codeResolveExt (contentType : Option String) (urlHint : Option String) : String :=
  if optStrTruthy contentType then
    let ct := lowerStr (contentType.getD "")
    if strContains ct "png" then ".png"
    else if strContains ct "webp" then ".webp"
    else ".jpg"
  else if optStrTruthy urlHint then
    let p := lowerStr (urlPath (urlHint.getD ""))
    [".jpg", ".jpeg", ".png", ".webp"].foldl
      (fun acc e => if strEndsWith p e then (if e = ".jpeg" then ".jpg" else e) else acc)
      ".jpg"
  else ".jpg"

example : specResolveExt (some "text/plain") (some "http://h/a.webp") = ".webp" := by decide
example : codeResolveExt (some "text/plain") (some "http://h/a.webp") = ".jpg" := by decide

/-! ## Storage engine: `DayDb` (src/hcmc_sixcam_capture.py 164-310)

A SQLite `frames` table is a `List FrameRow`; the per-camera store directory is
an association list `date string → table`. Connecting to a missing database
file creates an empty one, so a date with no entry reads as the empty table
(`lookupFile` defaults to `[]`). Events record the connection lifecycle so
that ordering claims (close old partition before opening the new one) are
statable. -/

/-- The fields of a Python `datetime` value that the repository extracts:
`int(ts.timestamp() * 1000)`, `ts.isoformat()`, `ts.strftime("%Y-%m-%d")` and
`ts.strftime("%H%M%S")`. -/
structure VnDateTime where
  epochMs : Int
  iso : String
  dateStr : String
  hhmmss : String
deriving DecidableEq, Repr

/-- One stored row of the `frames` table (columns in schema order; `was_gif`
and `ok` are the INTEGER 0/1 the code stores; only the `img_bytes` payload
column is modelled since the module constant `STORE_BASE64` is `False`). -/
structure FrameRow where
  cam_id : String
  ts_vn_ms : Int
  ts_vn_iso : String
  chunk_file : String
  code_slug : String
  expand_url : String
  img_url : String
  content_type : String
  ext : String
  w : Option Nat
  h : Option Nat
  sha256 : String
  was_gif : Nat
  ok : Nat
  err : String
  img_bytes : List Nat
deriving DecidableEq, Repr

/-- The `row` dict handed to `DayDb.upsert_one` by `capture_and_record`. -/
structure RowDict where
  ts_vn : VnDateTime
  chunk_file : String
  cam_id : String
  code_slug : String
  expand_url : String
  img_url : String
  content_type : String
  ext : String
  w : Option Nat
  h : Option Nat
  sha256 : String
  was_gif : Bool
  ok : Bool
  err : String
  img_bytes : List Nat
deriving DecidableEq, Repr

/-- The `payload` dict built inside `upsert_one` (plus the `img_bytes` bind
parameter), as a stored row. -/
def payloadOf (row : RowDict) : FrameRow :=
  { cam_id := row.cam_id
    ts_vn_ms := row.ts_vn.epochMs
    ts_vn_iso := row.ts_vn.iso
    chunk_file := row.chunk_file
    code_slug := row.code_slug
    expand_url := row.expand_url
    img_url := row.img_url
    content_type := row.content_type
    ext := row.ext
    w := row.w
    h := row.h
    sha256 := row.sha256
    was_gif := if row.was_gif then 1 else 0
    ok := if row.ok then 1 else 0
    err := row.err
    img_bytes := row.img_bytes }

/-- Does a stored row match the `(cam_id, ts_vn_ms)` key? -/
def keyMatch (q : FrameRow) (cam : String) (ms : Int) : Bool :=
  q.cam_id = cam && q.ts_vn_ms = ms

/-- `ON CONFLICT ... DO UPDATE SET`: every non-key column of the conflicting
row is overwritten with the excluded row's value, the key columns stay. -/
def overwriteNonKey (old new : FrameRow) : FrameRow :=
  { new with cam_id := old.cam_id, ts_vn_ms := old.ts_vn_ms }

/-- The single `INSERT ... ON CONFLICT(cam_id, ts_vn_ms) DO UPDATE` statement
of `upsert_one`, as one atomic table transformation. -/
def upsertFrames (tbl : List FrameRow) (r : FrameRow) : List FrameRow :=
  if tbl.any (fun q => keyMatch q r.cam_id r.ts_vn_ms) then
    tbl.map (fun q => if keyMatch q r.cam_id r.ts_vn_ms then overwriteNonKey q r else q)
  else
    tbl ++ [r]

/-- Connection lifecycle events emitted by the `DayDb` operations.
`schemaEnsure` stands for the PRAGMA and idempotent `CREATE TABLE IF NOT
EXISTS` / `CREATE ... INDEX IF NOT EXISTS` statements run on open. -/
inductive DbEvent
  | connClose
  | connOpen (date : String)
  | schemaEnsure
  | commit
deriving DecidableEq, Repr

/-- The `DayDb` object state: whether a connection is open, which date it is
open for, and the per-date persisted tables. -/
structure DayDb where
  cam_id : String
  chunk_file : String
  connOpen : Bool
  current_date_str : Option String
  files : List (String × List FrameRow)
deriving DecidableEq, Repr

/-- `DayDb.__init__`: no connection, no current date. -/
def initDayDb (cam_id chunk_file : String) : DayDb :=
  { cam_id := cam_id, chunk_file := chunk_file, connOpen := false,
    current_date_str := none, files := [] }

/-- The persisted table for a date (a missing database file reads as empty). -/
def lookupFile (files : List (String × List FrameRow)) (d : String) : List FrameRow :=
  match files.find? (fun p => p.1 = d) with
  | some p => p.2
  | none => []

/-- Store a table under a date, replacing an existing entry. -/
def setFile : List (String × List FrameRow) → String → List FrameRow →
    List (String × List FrameRow)
  | [], d, tbl => [(d, tbl)]
  | p :: rest, d, tbl =>
    if p.1 = d then (d, tbl) :: rest else p :: setFile rest d tbl

/-- `DayDb._open_conn_for_date`: close any open connection (no explicit
commit at this point in the source), connect for the new date, ensure the
schema, commit, and remember the date. -/
def DayDb.open_conn_for_date (s : DayDb) (d : String) : DayDb × List DbEvent :=
  ({ s with connOpen := true, current_date_str := some d },
    (if s.connOpen then [DbEvent.connClose] else [])
      ++ [DbEvent.connOpen d, DbEvent.schemaEnsure, DbEvent.commit])

/-- `DayDb._ensure_open_for_today` (takes the already-formatted date string). -/
def DayDb.ensure_open_for_today (s : DayDb) (d : String) : DayDb × List DbEvent :=
  if s.connOpen && s.current_date_str = some d then (s, [])
  else s.open_conn_for_date d

/-- `DayDb.upsert_one`: ensure the connection is open for the row's local
date, run the single upsert statement against that date's table, commit. -/
def DayDb.upsert_one (s : DayDb) (row : RowDict) : DayDb × List DbEvent :=
  let d := row.ts_vn.dateStr
  let (s1, evs) := s.ensure_open_for_today d
  let tbl := lookupFile s1.files d
  ({ s1 with files := setFile s1.files d (upsertFrames tbl (payloadOf row)) },
    evs ++ [DbEvent.commit])

/-- `DayDb.close`: commit and close when a connection is open, then clear the
connection and current date; a no-op (beyond the clearing) when closed. -/
def DayDb.close (s : DayDb) : DayDb × List DbEvent :=
  ({ s with connOpen := false, current_date_str := none },
    if s.connOpen then [DbEvent.commit, DbEvent.connClose] else [])

/-! ## `capture_and_record` and one scheduler cycle
(src/hcmc_sixcam_capture.py 313-378 and 417-479) -/

/-- A camera descriptor as read from the chunk file (`cam.get(...)` returns
`none` for a missing key). -/
structure CamDesc where
  cam_id : Option String
  code : Option String
  title : Option String
  expand_url : Option String
deriving DecidableEq, Repr

/-- The external collaborators of `capture_and_record` bundled: the PIL slice,
`hashlib.sha256(...).hexdigest` and the `unicodedata` functions of `slugify`. -/
structure PyExternal (Img : Type) where
  pil : PILOps Img
  sha : List Nat → String
  nfkd : List Char → List Char
  combining : Char → Bool

/-- The `slugify(cam.get("code") or cam.get("title") or "nocode")` label. -/
def camLabel {Img : Type} (lib : PyExternal Img) (cam : CamDesc) : String :=
  slugify lib.nfkd lib.combining (pyOrOpt cam.code (pyOrOpt cam.title (some "nocode")))

/-- One camera's interaction with its page during one cycle: the two
`get_displayed_img_url` calls (initial and retry), the two `fetch_img_bytes`
calls (initial and retry, each `(body?, content_type?)`), and whether
`sink.upsert_one` raises on this attempt. -/
structure CamEnv where
  locate1 : Option String
  locate2 : Option String
  fetch1 : Option (List Nat) × Option String
  fetch2 : Option (List Nat) × Option String
  storageRaises : Bool

/-- The local state of `capture_and_record` just before the row is built. -/
structure AttemptVars where
  ok : Bool
  err : Option String
  img_url : Option String
  out_bytes : Option (List Nat)
  content_type : Option String
  ext : Option String
  w : Option Nat
  h : Option Nat
  was_gif : Bool

/-- Locate/fetch/normalize portion of `capture_and_record`; `none` is the
exception `force_jpeg_if_gif` raises on unparseable animated-classified
bytes, which nothing in `capture_and_record` catches. -/
def attemptVars {Img : Type} (lib : PyExternal Img) (env : CamEnv) :
    Option AttemptVars :=
  let img_url := if optStrTruthy env.locate1 then env.locate1 else env.locate2
  if optStrTruthy img_url then
    let (b0, ct0) := env.fetch1
    let (b, ct) := if optBytesTruthy b0 then (b0, ct0) else env.fetch2
    if optBytesTruthy b then
      match forceJpegIfGif lib.pil (b.getD []) ct img_url with
      | none => none
      | some (b2, ext, wasGif, w, h) =>
        some { ok := true, err := none, img_url := img_url, out_bytes := some b2,
               content_type := if wasGif then some "image/jpeg" else pyOrOpt ct (some "image/jpeg"),
               ext := some ext, w := w, h := h, was_gif := wasGif }
    else
      some { ok := false, err := some "fetch_failed", img_url := img_url,
             out_bytes := none, content_type := none, ext := none,
             w := none, h := none, was_gif := false }
  else
    some { ok := false, err := some "no_img_found", img_url := img_url,
           out_bytes := none, content_type := none, ext := none,
           w := none, h := none, was_gif := false }

/-- The `row` dict `capture_and_record` builds from the attempt variables. -/
def buildRow {Img : Type} (lib : PyExternal Img) (cam : CamDesc) (sink : DayDb)
    (ts : VnDateTime) (v : AttemptVars) : RowDict :=
  let sha_hex := if v.ok && optBytesTruthy v.out_bytes then lib.sha (v.out_bytes.getD []) else ""
  { ts_vn := ts
    chunk_file := sink.chunk_file
    cam_id := getOrStr cam.cam_id "unknown"
    code_slug := camLabel lib cam
    expand_url := getOrStr cam.expand_url ""
    img_url := getOrStr v.img_url ""
    content_type := getOrStr v.content_type ""
    ext := getOrStr v.ext ""
    w := v.w
    h := v.h
    sha256 := sha_hex
    was_gif := v.was_gif
    ok := v.ok
    err := getOrStr v.err ""
    img_bytes := if v.ok && optBytesTruthy v.out_bytes then v.out_bytes.getD [] else [] }

/-- `capture_and_record`: returns the updated sink and the `(ok, code_slug)`
pair the coroutine returns, or `none` when the uncaught normalizer exception
propagates. A raising `upsert_one` is caught and turns the attempt into
`(False, code_slug)` with the sink unchanged. -/
def capture_and_record {Img : Type} (lib : PyExternal Img) (env : CamEnv)
    (cam : CamDesc) (sink : DayDb) (ts : VnDateTime) :
    Option (DayDb × Bool × String) :=
  match attemptVars lib env with
  | none => none
  | some v =>
    let row := buildRow lib cam sink ts v
    if env.storageRaises then some (sink, false, camLabel lib cam)
    else some ((sink.upsert_one row).1, v.ok, camLabel lib cam)

/-- One camera's slot in a cycle: its descriptor, its page interactions for
this cycle, and the `DayDb` sink `run_loop` keeps for its `cam_id`. -/
structure CamCycleInput where
  cam : CamDesc
  env : CamEnv
  sink : DayDb

/-- Whether a camera's attempt resolves successfully in this cycle (an
attempt that raises is not successful). -/
def attemptOk {Img : Type} (lib : PyExternal Img) (ts : VnDateTime)
    (i : CamCycleInput) : Bool :=
  match capture_and_record lib i.env i.cam i.sink ts with
  | some (_, ok, _) => ok
  | none => false

/-- The per-camera branch of the aggregation loop of `run_loop`: an exception
result counts as not-ok with the recomputed label, a value result contributes
`bool(ok)` and `lab2 or lab`. -/
def aggregatePair {Img : Type} (lib : PyExternal Img) (cam : CamDesc)
    (r : Option (Bool × String)) : Bool × String :=
  let lab := camLabel lib cam
  match r with
  | none => (false, lab)
  | some (ok, lab2) => (ok, if lab2 ≠ "" then lab2 else lab)

/-- What one iteration of the `while` loop of `run_loop` produces. -/
structure CycleOut where
  results : List (Option (DayDb × Bool × String))
  attempted : List CamDesc
  oks : List Bool
  labs : List String
  okTotal : Nat
  den : Nat
deriving Repr

/-- One cycle of `run_loop` over already-built `(cam, page, sink)` slots:
`asyncio.gather(..., return_exceptions=True)` over `capture_and_record`, then
the aggregation loop, `ok_total = sum(1 for x in oks if x)` and
`den = len(oks)`. -/
def runCycle {Img : Type} (lib : PyExternal Img) (ts : VnDateTime)
    (inputs : List CamCycleInput) : CycleOut :=
  let results := inputs.map (fun i => capture_and_record lib i.env i.cam i.sink ts)
  let pairs := (results.zip inputs).map
    (fun ri => aggregatePair lib ri.2.cam (ri.1.map (fun t => (t.2.1, t.2.2))))
  let oks := pairs.map (·.1)
  { results := results
    attempted := inputs.map (·.cam)
    oks := oks
    labs := pairs.map (·.2)
    okTotal := oks.countP (fun x => x)
    den := oks.length }

/-- One cycle of `run_loop` starting from the cohort list as loaded from the
chunk file: `cams = cams[:6]`, one sink per `cam_id`, one page per camera
(each camera's page interactions given by `envOf`). -/
def run_loop_cycle {Img : Type} (lib : PyExternal Img) (ts : VnDateTime)
    (camsIn : List CamDesc) (chunkFileName : String)
    (envOf : CamDesc → CamEnv) : CycleOut :=
  let cams := camsIn.take 6
  runCycle lib ts (cams.map (fun c =>
    { cam := c, env := envOf c,
      sink := initDayDb (getOrStr c.cam_id "unknown") chunkFileName }))

/-! ## Exporter (src/export_images.py)

The SQL machinery (schema autodetection, WHERE filter, ORDER BY, LIMIT/OFFSET
batching) streams the selected rows in timestamp order while the database is
untouched, so the per-row loop of `export_sqlite` is modelled over that
selected row list directly. The filesystem is the list of file names existing
under the output directory. `datetime.fromtimestamp`, `datetime.fromisoformat`
and `base64.b64decode` are external collaborators passed as parameters. -/

/-- A dynamically-typed SQLite column value, as the exporter can encounter it. -/
inductive SqlVal
  | null
  | int (n : Int)
  | text (s : String)
deriving DecidableEq, Repr

/-- Python truthiness of a fetched SQLite value. -/
def sqlTruthy : SqlVal → Bool
  | .null => false
  | .int n => n ≠ 0
  | .text s => s ≠ ""

/-- Python `int(x)` on a fetched SQLite value (`none` = `ValueError`):
integers pass through, strings must be an optionally signed digit string. -/
def pyIntOf : SqlVal → Option Int
  | .int n => some n
  | .text s =>
    let l := pyStripWs s.toList
    let (sign, ds) : Int × List Char :=
      match l with
      | '-' :: t => (-1, t)
      | '+' :: t => (1, t)
      | t => (1, t)
    if ds ≠ [] && ds.all Char.isDigit then
      some (sign * (ds.foldl (fun acc c => acc * 10 + (c.toNat - 48)) 0 : Nat))
    else none
  | .null => none

/-- Python `str(x)` on a fetched SQLite value. -/
def pyStrOf : SqlVal → String
  | .null => "None"
  | .int n => toString n
  | .text s => s

/-- The result of a successful Python `datetime` parse, reduced to the field
the exporter uses afterwards: `ts.strftime("%H%M%S")`. -/
structure PyDateTime where
  hhmmss : String
deriving DecidableEq, Repr

/-- The `datetime` collaborators of `parse_ts`:
`datetime.fromtimestamp(int(ts_ms) / 1000.0)` (may raise, e.g. out of range)
and `datetime.fromisoformat(str(ts_iso))` (raises on malformed input). -/
structure ParseCtx where
  fromTimestampMs : Int → Option PyDateTime
  fromIso : String → Option PyDateTime

/-- The error message of the `ValueError` raised by `parse_ts`. -/
def tsErrMsg (tsMs tsIso : SqlVal) : String :=
  "Khong parse duoc timestamp: ts_ms=" ++ pyStrOf tsMs ++ ", ts_iso=" ++ pyStrOf tsIso

/-- `parse_ts` from src/export_images.py: try the millisecond value, then the
ISO string, raise when both fail. -/
def parse_ts (pc : ParseCtx) (tsMs tsIso : SqlVal) : Except String PyDateTime :=
  let first : Option PyDateTime :=
    match tsMs with
    | .null => none
    | v =>
      match pyIntOf v with
      | none => none
      | some n => pc.fromTimestampMs n
  match first with
  | some dt => .ok dt
  | none =>
    let second : Option PyDateTime :=
      if sqlTruthy tsIso then pc.fromIso (pyStrOf tsIso) else none
    match second with
    | some dt => .ok dt
    | none => .error (tsErrMsg tsMs tsIso)

/-- `ensure_ext` from src/export_images.py. -/
def ensure_ext (e : String) : String :=
  if e = "" then ".jpg"
  else
    let t := lowerStr (String.mk (pyStripWs e.toList))
    let t := if isPrefixOfL ['.'] t.toList then t else "." ++ t
    if t = ".jpeg" then ".jpg" else t

/-- `guess_ext_from_ct` from src/export_images.py. -/
def guess_ext_from_ct (ct : Option String) : String :=
  match ct with
  | none => ".jpg"
  | some c =>
    if c = "" then ".jpg"
    else
      let cl := lowerStr c
      if strContains cl "png" then ".png"
      else if strContains cl "webp" then ".webp"
      else if strContains cl "jpeg" || strContains cl "jpg" then ".jpg"
      else ".jpg"

/-- `safe_slug` from src/export_images.py. -/
def safe_slug (s : Option String) : String :=
  let t := String.mk (pyStripWs (getOrStr s "nocode").toList)
  let t80 := strTake t 80
  if t80 = "" then "nocode" else t80

/-- One selected row as `export_sqlite` reads it after column aliasing. -/
structure ExportRow where
  slug : Option String
  tsMs : SqlVal
  tsIso : SqlVal
  sha256 : Option String
  ext : Option String
  content_type : Option String
  img_bytes : Option (List Nat)
  img_b64 : Option String
deriving DecidableEq, Repr

/-- The exporter's running totals `(exported, skipped, total_ok)`. -/
structure ExportTotals where
  exported : Nat
  skipped : Nat
  total_ok : Nat
deriving DecidableEq, Repr

/-- The deterministic destination filename
`<cam_id>__<slug>__<date_compact>__<HHMMSS>__<sha8><ext>` of one row. -/
def exportFilename (cam_id date_compact : String) (row : ExportRow)
    (ts : PyDateTime) : String :=
  let slug := safe_slug row.slug
  let sha_hex := String.mk (pyStripWs (getOrStr row.sha256 "").toList)
  let sha8 := if sha_hex ≠ "" then strTake sha_hex 8 else "nohash"
  let e := ensure_ext (if optStrTruthy row.ext then row.ext.getD "" else guess_ext_from_ct row.content_type)
  cam_id ++ "__" ++ slug ++ "__" ++ date_compact ++ "__" ++ ts.hhmmss ++ "__" ++ sha8 ++ e

/-- The payload bytes of one row after the `img_bytes` / base64 fallback logic
(`[]` means falsy: `None`, `b""`, or a failed/absent base64 decode). -/
def exportPayload (b64dec : String → Option (List Nat)) (row : ExportRow) : List Nat :=
  if optBytesTruthy row.img_bytes then row.img_bytes.getD []
  else if optStrTruthy row.img_b64 then (b64dec (row.img_b64.getD "")).getD []
  else row.img_bytes.getD []

/-- The per-row loop of `export_sqlite`, over the selected rows, threading the
set of existing destination files and the totals. `.error` is the uncaught
`ValueError` of `parse_ts` aborting the whole export. -/
def exportRows (pc : ParseCtx) (b64dec : String → Option (List Nat))
    (cam_id date_compact : String) :
    List String → ExportTotals → List ExportRow →
    Except String (ExportTotals × List String)
  | fs, tot, [] => .ok (tot, fs)
  | fs, tot, row :: rest =>
    let tot := { tot with total_ok := tot.total_ok + 1 }
    match parse_ts pc row.tsMs row.tsIso with
    | .error e => .error e
    | .ok ts =>
      let fname := exportFilename cam_id date_compact row ts
      if fname ∈ fs then
        exportRows pc b64dec cam_id date_compact fs
          { tot with skipped := tot.skipped + 1 } rest
      else if exportPayload b64dec row = [] then
        exportRows pc b64dec cam_id date_compact fs
          { tot with skipped := tot.skipped + 1 } rest
      else
        exportRows pc b64dec cam_id date_compact (fs ++ [fname])
          { tot with exported := tot.exported + 1 } rest

/-- `export_sqlite` on one day-partition store: run the row loop from zeroed
totals over the current destination file set, returning the
`(exported, skipped, total_ok)` totals and the resulting file set. -/
def export_sqlite (pc : ParseCtx) (b64dec : String → Option (List Nat))
    (cam_id date_compact : String) (fs : List String) (rows : List ExportRow) :
    Except String (ExportTotals × List String) :=
  exportRows pc b64dec cam_id date_compact fs
    { exported := 0, skipped := 0, total_ok := 0 } rows

/-! ## Concrete fixtures used by witnesses and counterexamples -/

/-- External-library bundle whose PIL decode always fails. -/
def libNone : PyExternal (String × Nat × Nat) :=
  { pil := pilNone, sha := fun b => "h" ++ toString b.length,
    nfkd := id, combining := fun _ => false }

/-- External-library bundle whose PIL decode yields a fixed palette image. -/
def libP : PyExternal (String × Nat × Nat) :=
  { libNone with pil := pilP }

/-- A fixed capture timestamp. -/
def tsW : VnDateTime :=
  { epochMs := 1700000000000, iso := "2025-01-01T12:00:00+07:00",
    dateStr := "2025-01-01", hhmmss := "120000" }

/-- A capture timestamp on the following local date. -/
def tsW2 : VnDateTime :=
  { epochMs := 1700000015000, iso := "2025-01-02T00:00:01+07:00",
    dateStr := "2025-01-02", hhmmss := "000001" }

/-- A camera environment whose fetch succeeds with plain JPEG-ish bytes. -/
def envOkW : CamEnv :=
  { locate1 := some "http://cam/img.jpg", locate2 := none,
    fetch1 := (some [1, 2, 3], some "image/jpeg"),
    fetch2 := (none, none), storageRaises := false }

/-- A camera environment whose fetch fails on both tries. -/
def envFetchFailW : CamEnv :=
  { locate1 := some "http://cam/img.jpg", locate2 := none,
    fetch1 := (none, none), fetch2 := (none, none), storageRaises := false }

/-- A camera environment that fetches GIF-signature bytes. -/
def envGifW : CamEnv :=
  { envOkW with fetch1 := (some [71, 73, 70, 56, 9], some "image/gif") }

/-- Camera descriptors for the three-camera cycle example. -/
def camA : CamDesc :=
  { cam_id := some "camA", code := some "A1", title := none, expand_url := some "http://e/a" }

/-- Second camera of the example cohort. -/
def camB : CamDesc :=
  { cam_id := some "camB", code := some "B2", title := none, expand_url := some "http://e/b" }

/-- Third camera of the example cohort. -/
def camC : CamDesc :=
  { cam_id := some "camC", code := some "C3", title := none, expand_url := some "http://e/c" }

/-- A numbered throwaway camera descriptor. -/
def camN (n : Nat) : CamDesc :=
  { cam_id := some ("cam" ++ toString n), code := some ("c" ++ toString n),
    title := none, expand_url := some "http://e/x" }

/-- A seven-camera cohort (one more than the hard-coded `cams[:6]` cut). -/
def cams7 : List CamDesc :=
  [camN 0, camN 1, camN 2, camN 3, camN 4, camN 5, camN 6]

/-- A `datetime` collaborator pair for exporter examples: millisecond values
in a broad plausible range parse to a fixed time-of-day, ISO strings parse
when they start with a digit. -/
def pcW : ParseCtx :=
  { fromTimestampMs := fun n => if 0 ≤ n ∧ n < 100000000000000 then some { hhmmss := "120000" } else none,
    fromIso := fun s =>
      match s.toList with
      | c :: _ => if c.isDigit then some { hhmmss := "120001" } else none
      | [] => none }

/-- A base64 collaborator for exporter examples: decodes only `"AAAA"`. -/
def b64W : String → Option (List Nat) :=
  fun s => if s = "AAAA" then some [0, 0, 0] else none

/-- An exporter row with a valid timestamp and a raw payload. -/
def rowOkW : ExportRow :=
  { slug := some "a1", tsMs := .int 1700000000000, tsIso := .text "2025-01-01T12:00:00",
    sha256 := some "abcdef0123456789", ext := some ".jpg", content_type := some "image/jpeg",
    img_bytes := some [9, 9], img_b64 := none }

/-- An exporter row with an empty payload (counted as skipped). -/
def rowEmptyW : ExportRow :=
  { rowOkW with slug := some "a2", img_bytes := some [], img_b64 := none }

/-- An exporter row whose timestamp is unparseable under both
representations. -/
def rowBadTsW : ExportRow :=
  { rowOkW with slug := some "a3", tsMs := .text "garbage", tsIso := .text "also-garbage" }

/-- A `DayDb` whose connection is open for 2025-01-01. -/
def dayDbOpenW : DayDb :=
  { cam_id := "camA", chunk_file := "c", connOpen := true,
    current_date_str := some "2025-01-01", files := [] }

/-- A row dict captured at `tsW`. -/
def rowW1 : RowDict :=
  { ts_vn := tsW, chunk_file := "c", cam_id := "camA", code_slug := "a1",
    expand_url := "", img_url := "", content_type := "", ext := "",
    w := none, h := none, sha256 := "", was_gif := false, ok := true,
    err := "", img_bytes := [1] }

/-- A second row dict at the same `(cam_id, ts)` key with a different payload. -/
def rowW2 : RowDict :=
  { rowW1 with sha256 := "zz", img_bytes := [2] }

/-- A row dict captured on the following local date. -/
def rowW3 : RowDict :=
  { rowW1 with ts_vn := tsW2 }

/-! ## Supporting lemmas: characters and the `slugify` pipeline -/

theorem char_toNat_ofNat_valid {n : Nat} (h : n.isValidChar) : (Char.ofNat n).toNat = n := by
  simp [Char.ofNat, h, Char.ofNatAux, Char.toNat, UInt32.toNat]

theorem char_isUpper_iff (c : Char) : c.isUpper = true ↔ 65 ≤ c.toNat ∧ c.toNat ≤ 90 := by
  simp [Char.isUpper, UInt32.le_def, BitVec.le_def, Char.toNat, UInt32.toNat]

theorem isUpper_toLower_false (c : Char) : (Char.toLower c).isUpper = false := by
  unfold Char.toLower
  simp only []
  split
  case isTrue h =>
    have hv : Nat.isValidChar (Char.toNat c + 32) := Or.inl (by omega)
    have h2 : (Char.ofNat (Char.toNat c + 32)).toNat = Char.toNat c + 32 := char_toNat_ofNat_valid hv
    rw [Bool.eq_false_iff]
    intro hu
    have := (char_isUpper_iff _).1 hu
    omega
  case isFalse h =>
    rw [Bool.eq_false_iff]
    intro hu
    have := (char_isUpper_iff _).1 hu
    omega

theorem replaceDunder_length_le : ∀ l : List Char, (replaceDunder l).length ≤ l.length
  | [] => by simp [replaceDunder]
  | [c] => by simp [replaceDunder]
  | c1 :: c2 :: t => by
    unfold replaceDunder
    split
    · have := replaceDunder_length_le t
      simp; omega
    · have := replaceDunder_length_le (c2 :: t)
      simp at this ⊢; omega

theorem replaceDunder_length_lt : ∀ l : List Char, containsDunder l = true →
    (replaceDunder l).length < l.length
  | c1 :: c2 :: t, h => by
    unfold replaceDunder
    split
    case isTrue hc =>
      have := replaceDunder_length_le t
      simp; omega
    case isFalse hc =>
      unfold containsDunder at h
      rw [Bool.or_eq_true] at h
      rcases h with h | h
      · exact absurd h hc
      · have := replaceDunder_length_lt (c2 :: t) h
        simp at this ⊢; omega

theorem collapseDundersFuel_no_dunder : ∀ fuel (l : List Char), l.length < fuel →
    containsDunder (collapseDundersFuel fuel l) = false := by
  intro fuel
  induction fuel with
  | zero => intro l h; omega
  | succ n ih =>
    intro l h
    unfold collapseDundersFuel
    by_cases hc : containsDunder l = true
    · rw [if_pos hc]
      exact ih _ (by have := replaceDunder_length_lt l hc; omega)
    · rw [if_neg hc]
      exact Bool.eq_false_iff.2 hc

theorem containsDunder_collapseDunders (l : List Char) :
    containsDunder (collapseDunders l) = false :=
  collapseDundersFuel_no_dunder (l.length + 1) l (by omega)

theorem mem_replaceDunder : ∀ (l : List Char) c, c ∈ replaceDunder l → c ∈ l
  | [], c, h => by simp [replaceDunder] at h
  | [a], c, h => by simpa [replaceDunder] using h
  | a :: b :: t, c, h => by
    unfold replaceDunder at h
    split at h
    case isTrue hc =>
      rcases List.mem_cons.1 h with rfl | h2
      · simp at hc
        simp [hc.1]
      · exact List.mem_cons_of_mem _ (List.mem_cons_of_mem _ (mem_replaceDunder t c h2))
    case isFalse hc =>
      rcases List.mem_cons.1 h with rfl | h2
      · simp
      · exact List.mem_cons_of_mem _ (mem_replaceDunder (b :: t) c h2)

theorem mem_collapseDundersFuel : ∀ fuel (l : List Char) c,
    c ∈ collapseDundersFuel fuel l → c ∈ l := by
  intro fuel
  induction fuel with
  | zero => intro l c h; simpa [collapseDundersFuel] using h
  | succ n ih =>
    intro l c h
    unfold collapseDundersFuel at h
    split at h
    · exact mem_replaceDunder l c (ih _ c h)
    · exact h

theorem containsDunder_cons_cons (a b : Char) (t : List Char) :
    containsDunder (a :: b :: t) = ((a = '_' && b = '_') || containsDunder (b :: t)) := rfl

theorem containsDunder_eq_false_iff_chain : ∀ l : List Char,
    containsDunder l = false ↔ List.Chain' (fun a b => ¬(a = '_' ∧ b = '_')) l
  | [] => by simp [containsDunder]
  | [a] => by simp [containsDunder]
  | a :: b :: t => by
    rw [List.chain'_cons, ← containsDunder_eq_false_iff_chain (b :: t), containsDunder_cons_cons]
    simp only [Bool.or_eq_false_iff, Bool.and_eq_false_iff, decide_eq_false_iff_not]
    constructor
    · rintro ⟨h1, h2⟩
      exact ⟨fun ⟨ha, hb⟩ => by rcases h1 with h | h <;> [exact h ha; exact h hb], h2⟩
    · rintro ⟨h1, h2⟩
      refine ⟨?_, h2⟩
      by_cases ha : a = '_'
      · by_cases hb : b = '_'
        · exact absurd ⟨ha, hb⟩ h1
        · exact Or.inr hb
      · exact Or.inl ha

theorem dropWhile_head_not (p : Char → Bool) : ∀ (l : List Char) c t,
    l.dropWhile p = c :: t → p c = false
  | [], c, t, h => by simp [List.dropWhile] at h
  | a :: rest, c, t, h => by
    rw [List.dropWhile_cons] at h
    split at h
    · exact dropWhile_head_not p rest c t h
    case isFalse hpa => cases h; exact Bool.eq_false_iff.2 hpa

theorem getLast?_dropWhile (p : Char → Bool) (l : List Char)
    (h : l.dropWhile p ≠ []) : (l.dropWhile p).getLast? = l.getLast? := by
  obtain ⟨pre, hpre⟩ := List.dropWhile_suffix (l := l) p
  conv_rhs => rw [← hpre]
  rw [List.getLast?_append]
  cases hd : (List.dropWhile p l).getLast? with
  | none => exact absurd (List.getLast?_eq_none_iff.1 hd) h
  | some x => simp [Option.or]

theorem pyStripChars_within (cs : List Char) (l : List Char) :
    pyStripChars cs l <:+: l := by
  unfold pyStripChars
  have h1 : l.dropWhile (· ∈ cs) <:+ l := List.dropWhile_suffix _
  have h2 : (l.dropWhile (· ∈ cs)).reverse.dropWhile (· ∈ cs) <:+
      (l.dropWhile (· ∈ cs)).reverse := List.dropWhile_suffix _
  have h3 : ((l.dropWhile (· ∈ cs)).reverse.dropWhile (· ∈ cs)).reverse <+:
      l.dropWhile (· ∈ cs) := by
    rw [← List.reverse_suffix]
    simpa using h2
  have h4 := List.IsPrefix.isInfix h3
  have h5 := List.IsSuffix.isInfix h1
  exact h4.trans h5

theorem mem_pyStripChars (cs : List Char) (l : List Char) (c : Char)
    (h : c ∈ pyStripChars cs l) : c ∈ l :=
  (pyStripChars_within cs l).sublist.subset h

theorem pyStripChars_head_not (cs : List Char) (l : List Char) (c : Char)
    (h : (pyStripChars cs l).head? = some c) : c ∉ cs := by
  unfold pyStripChars at h
  rw [List.head?_reverse] at h
  have hne : (l.dropWhile (· ∈ cs)).reverse.dropWhile (· ∈ cs) ≠ [] := by
    intro hnil
    rw [hnil] at h
    simp at h
  rw [getLast?_dropWhile _ _ hne, List.getLast?_reverse] at h
  cases hd : l.dropWhile (· ∈ cs) with
  | nil => rw [hd] at h; simp at h
  | cons a t =>
    rw [hd] at h
    simp at h
    subst h
    have := dropWhile_head_not (· ∈ cs) l a t hd
    simpa using this

theorem pyStripChars_getLast_not (cs : List Char) (l : List Char) (c : Char)
    (h : (pyStripChars cs l).getLast? = some c) : c ∉ cs := by
  unfold pyStripChars at h
  rw [List.getLast?_reverse] at h
  cases hd : (l.dropWhile (· ∈ cs)).reverse.dropWhile (· ∈ cs) with
  | nil => rw [hd] at h; simp at h
  | cons a t =>
    rw [hd] at h
    simp at h
    subst h
    have := dropWhile_head_not (· ∈ cs) (l.dropWhile (· ∈ cs)).reverse a t hd
    simpa using this

theorem containsDunder_pyStripChars (cs : List Char) (l : List Char)
    (h : containsDunder l = false) : containsDunder (pyStripChars cs l) = false := by
  have hch := (containsDunder_eq_false_iff_chain l).1 h
  have hch2 := List.Chain'.infix hch (pyStripChars_within cs l)
  exact (containsDunder_eq_false_iff_chain _).2 hch2

theorem slugPipeline_all (l1 : List Char) (c : Char)
    (hc : c ∈ slugPipeline l1) :
    ((c.isAlphanum && !c.isUpper) || (c = '.' || c = '_' || c = '-')) = true := by
  unfold slugPipeline at hc
  have h5 := mem_pyStripChars _ _ _ hc
  have h4 := mem_collapseDundersFuel _ _ _ h5
  rw [List.mem_map] at h4
  obtain ⟨c3, h3, rfl⟩ := h4
  rw [List.mem_map] at h3
  obtain ⟨c2, h2, rfl⟩ := h3
  rw [List.mem_map] at h2
  obtain ⟨c0, _, rfl⟩ := h2
  have hu := isUpper_toLower_false c0
  by_cases hk : ((Char.toLower c0).isAlphanum || Char.toLower c0 ∈ ['.', '_', '-', ' ']) = true
  · rw [if_pos hk]
    by_cases hsp : Char.toLower c0 = ' '
    · simp [hsp]
    · rw [if_neg hsp]
      rw [Bool.or_eq_true] at hk
      rcases hk with halnum | hmem
      · simp [halnum, hu]
      · rw [decide_eq_true_eq] at hmem
        have hmem' : Char.toLower c0 = '.' ∨ Char.toLower c0 = '_' ∨
            Char.toLower c0 = '-' ∨ Char.toLower c0 = ' ' := by simpa using hmem
        rcases hmem' with h | h | h | h
        · simp [h]
        · simp [h]
        · simp [h]
        · exact absurd h hsp
  · rw [if_neg hk]
    simp

theorem slug_pipe_props (l1 : List Char) :
    (∀ c ∈ slugPipeline l1,
      ((c.isAlphanum && !c.isUpper) || (c = '.' || c = '_' || c = '-')) = true) ∧
    containsDunder (slugPipeline l1) = false ∧
    (∀ c, (slugPipeline l1).head? = some c → c ∉ ['.', '_', '-']) ∧
    (∀ c, (slugPipeline l1).getLast? = some c → c ∉ ['.', '_', '-']) :=
  ⟨fun c hc => slugPipeline_all l1 c hc,
   containsDunder_pyStripChars _ _ (containsDunder_collapseDunders _),
   fun c hc => pyStripChars_head_not _ _ c hc,
   fun c hc => pyStripChars_getLast_not _ _ c hc⟩

/-- C10. The slug used for `code_slug` and filenames is always a non-empty
string of lowercase-or-caseless alphanumerics and `.`/`_`/`-`, with no two
consecutive underscores and no leading or trailing `.`/`_`/`-`; `None` and
`""` inputs yield the fixed slug "nocode". (Stated for arbitrary
`unicodedata` collaborators; `isAlphanum`/`isUpper` are the ASCII predicates
the embedding uses for Python's `str.isalnum`/case mapping.) -/
theorem slugify_output_wellformed (nfkd : List Char → List Char)
    (combining : Char → Bool) (text : Option String) :
    slugify nfkd combining text ≠ "" ∧
    (slugify nfkd combining text).toList.all
      (fun c => (c.isAlphanum && !c.isUpper) || (c = '.' || c = '_' || c = '-')) = true ∧
    containsDunder (slugify nfkd combining text).toList = false ∧
    (∀ c, (slugify nfkd combining text).toList.head? = some c → c ∉ ['.', '_', '-']) ∧
    (∀ c, (slugify nfkd combining text).toList.getLast? = some c → c ∉ ['.', '_', '-']) ∧
    slugify nfkd combining none = "nocode" ∧
    slugify nfkd combining (some "") = "nocode" := by
  have hnocode : ("nocode" : String) ≠ "" ∧
      ("nocode" : String).toList.all
        (fun c => (c.isAlphanum && !c.isUpper) || (c = '.' || c = '_' || c = '-')) = true ∧
      containsDunder ("nocode" : String).toList = false ∧
      (∀ c, ("nocode" : String).toList.head? = some c → c ∉ ['.', '_', '-']) ∧
      (∀ c, ("nocode" : String).toList.getLast? = some c → c ∉ ['.', '_', '-']) := by
    refine ⟨by decide, by decide, by decide, ?_, ?_⟩
    · intro c h
      have h0 : ("nocode" : String).toList.head? = some 'n' := rfl
      rw [h0] at h
      injection h with h
      subst h
      decide
    · intro c h
      have h0 : ("nocode" : String).toList.getLast? = some 'e' := rfl
      rw [h0] at h
      injection h with h
      subst h
      decide
  match text with
  | none =>
    exact ⟨hnocode.1, hnocode.2.1, hnocode.2.2.1, hnocode.2.2.2.1, hnocode.2.2.2.2, rfl, rfl⟩
  | some t =>
    by_cases ht : t = ""
    · subst ht
      exact ⟨hnocode.1, hnocode.2.1, hnocode.2.2.1, hnocode.2.2.2.1, hnocode.2.2.2.2, rfl, rfl⟩
    · have hval : slugify nfkd combining (some t) =
          (if slugPipeline ((nfkd t.toList).filter (fun c => !combining c)) = []
            then "nocode"
            else String.mk (slugPipeline ((nfkd t.toList).filter (fun c => !combining c)))) := by
        simp only [slugify]
        rw [if_neg ht]
      rw [hval]
      by_cases hl6 : slugPipeline ((nfkd t.toList).filter (fun c => !combining c)) = []
      · rw [if_pos hl6]
        exact ⟨hnocode.1, hnocode.2.1, hnocode.2.2.1, hnocode.2.2.2.1, hnocode.2.2.2.2, rfl, rfl⟩
      · rw [if_neg hl6]
        have props := slug_pipe_props ((nfkd t.toList).filter (fun c => !combining c))
        have htl : (String.mk (slugPipeline ((nfkd t.toList).filter (fun c => !combining c)))).toList
            = slugPipeline ((nfkd t.toList).filter (fun c => !combining c)) := rfl
        refine ⟨?_, ?_, ?_, ?_, ?_, rfl, rfl⟩
        · intro h
          exact hl6 (by simpa using congrArg String.data h)
        · rw [htl, List.all_eq_true]
          intro c hc
          exact props.1 c hc
        · rw [htl]
          exact props.2.1
        · rw [htl]
          exact props.2.2.1
        · rw [htl]
          exact props.2.2.2

/-- Witness for `slugify_output_wellformed`: concrete input discharging the
quantified hypotheses. -/
theorem slugify_output_wellformed_witness :
    slugify id (fun _ => false) (some "Hello World!") ≠ "" ∧ 'h' ∉ ['.', '_', '-'] :=
  ⟨(slugify_output_wellformed id (fun _ => false) (some "Hello World!")).1,
   (slugify_output_wellformed id (fun _ => false) (some "Hello World!")).2.2.2.1 'h' (by decide)⟩

/-! ## Claims about `force_jpeg_if_gif` (C4, C6) -/

theorem forceJpegIfGif_eq_of_not_gif {Img : Type} (ops : PILOps Img) (b : List Nat)
    (ct url : Option String) (h : isGifClassified b ct url = false) :
    forceJpegIfGif ops b ct url =
      some (b, codeResolveExt ct url, false,
        (ops.openImg b).map (fun im => (ops.size im).1),
        (ops.openImg b).map (fun im => (ops.size im).2)) := by
  simp only [forceJpegIfGif, h, if_pos]
  cases ops.openImg b <;> simp [codeResolveExt]

/-- C4 counterexample: with declared content-type `"text/plain"` (present but
determining no extension) and a URL ending in `.webp`, the code resolves
`.jpg` while the claimed content-type-then-URL fallback resolves `.webp`. -/
theorem ext_fallback_counterexample :
    forceJpegIfGif pilNone [1, 2, 3] (some "text/plain") (some "http://h/a.webp") =
      some ([1, 2, 3], ".jpg", false, none, none) ∧
    specResolveExt (some "text/plain") (some "http://h/a.webp") = ".webp" ∧
    (".jpg" : String) ≠ ".webp" := by
  refine ⟨by decide, by decide, by decide⟩

/-- C4 amended: for non-animated inputs the extension is resolved by the
declared content-type whenever one is present (`png`→`.png`, `webp`→`.webp`,
anything else→`.jpg`); the URL path suffix is consulted only when the
content-type is absent or empty, and the final fallback is `.jpg`
(`codeResolveExt`). -/
theorem ext_resolution_content_type_gates_url {Img : Type} (ops : PILOps Img)
    (b : List Nat) (ct url : Option String)
    (h : isGifClassified b ct url = false) :
    (forceJpegIfGif ops b ct url).map (fun t => t.2.1) = some (codeResolveExt ct url) := by
  rw [forceJpegIfGif_eq_of_not_gif ops b ct url h]
  rfl

/-- Witness for `ext_resolution_content_type_gates_url`: no content-type and
a `.webp` URL resolve to `.webp`; neither source resolves to `.jpg`. -/
theorem ext_resolution_content_type_gates_url_witness :
    isGifClassified [1, 2, 3] none (some "http://h/a.webp") = false ∧
    (forceJpegIfGif pilNone [1, 2, 3] none (some "http://h/a.webp")).map (fun t => t.2.1) =
      some (codeResolveExt none (some "http://h/a.webp")) ∧
    codeResolveExt none (some "http://h/a.webp") = ".webp" ∧
    codeResolveExt none (some "http://h/a.bin") = ".jpg" :=
  ⟨by decide,
   ext_resolution_content_type_gates_url pilNone [1, 2, 3] none (some "http://h/a.webp") (by decide),
   by decide, by decide⟩

/-- C6. An input classified as animated (content-type containing "gif", or
byte prefix `GIF8`, or URL path ending `.gif` — the classification equals that
three-way disjunction) whose bytes PIL can open is re-encoded: the output
bytes are the JPEG encoding at quality 90 (with entropy optimization) of the
first frame composited by `gifFlattened` (alpha/palette frames pasted onto an
opaque white background), the extension is `.jpg`, and `was_gif` is true. -/
theorem animated_input_normalized_to_jpeg {Img : Type} (ops : PILOps Img)
    (b : List Nat) (ct url : Option String) (im0 : Img)
    (hgif : isGifClassified b ct url = true)
    (hopen : ops.openImg b = some im0) :
    forceJpegIfGif ops b ct url =
      some (ops.saveJPEG (gifFlattened ops (ops.seek0 im0)) 90 true, ".jpg", true,
        some (ops.size (gifFlattened ops (ops.seek0 im0))).1,
        some (ops.size (gifFlattened ops (ops.seek0 im0))).2) ∧
    isGifClassified b ct url =
      ((optStrTruthy ct && strContains (lowerStr (ct.getD "")) "gif")
        || decide (b.take 4 = [71, 73, 70, 56])
        || (optStrTruthy url && strEndsWith (lowerStr (urlPath (url.getD ""))) ".gif")) := by
  constructor
  · simp [forceJpegIfGif, hgif, hopen]
  · unfold isGifClassified
    by_cases h1 : (optStrTruthy ct && strContains (lowerStr (ct.getD "")) "gif") = true
    · simp [h1]
    · rw [Bool.not_eq_true] at h1
      by_cases h2 : b.take 4 = [71, 73, 70, 56]
      · simp [h1, h2]
      · by_cases h3 : (optStrTruthy url && strEndsWith (lowerStr (urlPath (url.getD ""))) ".gif") = true
        · simp [h1, h2, h3]
        · rw [Bool.not_eq_true] at h3
          simp [h1, h2, h3]

/-- Witness for `animated_input_normalized_to_jpeg`: GIF-signature bytes with
a palette decode produce the JPEG re-encode of the white-composited frame. -/
theorem animated_input_normalized_to_jpeg_witness :
    isGifClassified [71, 73, 70, 56, 9] none none = true ∧
    pilP.openImg [71, 73, 70, 56, 9] = some ("P", 3, 2) ∧
    forceJpegIfGif pilP [71, 73, 70, 56, 9] none none =
      some (pilP.saveJPEG (gifFlattened pilP (pilP.seek0 ("P", 3, 2))) 90 true, ".jpg", true,
        some (pilP.size (gifFlattened pilP (pilP.seek0 ("P", 3, 2)))).1,
        some (pilP.size (gifFlattened pilP (pilP.seek0 ("P", 3, 2)))).2) :=
  ⟨by decide, by decide,
   (animated_input_normalized_to_jpeg pilP [71, 73, 70, 56, 9] none none ("P", 3, 2)
     (by decide) (by decide)).1⟩

/-! ## Claim C2: what actually happens on undecodable bytes -/

/-- C2 counterexample: undecodable non-animated bytes (every PIL decode fails
in `pilNone`) do NOT produce an `ok=false` / `err="decode_failure"` record —
the attempt resolves as a success and the persisted record has `ok = 1` and an
empty error tag. -/
theorem decode_failure_counterexample :
    pilNone.openImg [1, 2, 3] = none ∧
    (capture_and_record libNone envOkW camA (initDayDb "camA" "chunk.json") tsW).map
      (fun t => t.2.1) = some true ∧
    (lookupFile (((capture_and_record libNone envOkW camA
          (initDayDb "camA" "chunk.json") tsW).map (fun t => t.1)).getD
        (initDayDb "x" "y")).files "2025-01-01").map (fun q => (q.ok, q.err)) =
      [(1, "")] := by
  refine ⟨by decide, by decide, by decide⟩

/-- C2 amended: when the fetched bytes are not parseable as any image, no
`decode_failure` record exists. If the input is not classified as animated,
the attempt succeeds: the record is persisted with `ok=true`, the raw bytes
stored unchanged and width/height unset. If it is classified as animated, the
normalizer's exception propagates out of `capture_and_record` (`none`), no
record is persisted for that attempt, and the cycle survives because the
gathered exception is aggregated as a not-ok attempt. -/
theorem undecodable_bytes_passthrough_or_raise {Img : Type} (lib : PyExternal Img)
    (env : CamEnv) (cam : CamDesc) (sink : DayDb) (ts : VnDateTime)
    (u : String) (b : List Nat) (ct : Option String)
    (hloc : env.locate1 = some u) (hu : u ≠ "")
    (hf : env.fetch1 = (some b, ct)) (hb : b ≠ [])
    (hopen : lib.pil.openImg b = none)
    (hsr : env.storageRaises = false) :
    (isGifClassified b ct (some u) = false →
      capture_and_record lib env cam sink ts =
        some ((sink.upsert_one (buildRow lib cam sink ts
          { ok := true, err := none, img_url := some u, out_bytes := some b,
            content_type := pyOrOpt ct (some "image/jpeg"),
            ext := some (codeResolveExt ct (some u)),
            w := none, h := none, was_gif := false })).1, true, camLabel lib cam)) ∧
    (isGifClassified b ct (some u) = true →
      capture_and_record lib env cam sink ts = none ∧
      aggregatePair lib cam none = (false, camLabel lib cam)) := by
  have htr : optStrTruthy (some u) = true := by simp [optStrTruthy, hu]
  have hbt : optBytesTruthy (some b) = true := by simp [optBytesTruthy, hb]
  constructor
  · intro hng
    have hfj := forceJpegIfGif_eq_of_not_gif lib.pil b ct (some u) hng
    rw [hopen] at hfj
    simp only [Option.map_none'] at hfj
    simp [capture_and_record, attemptVars, hloc, hf, htr, hbt, hfj, hsr]
  · intro hg
    have hfj : forceJpegIfGif lib.pil b ct (some u) = none := by
      simp [forceJpegIfGif, hg, hopen]
    refine ⟨?_, rfl⟩
    simp [capture_and_record, attemptVars, hloc, hf, htr, hbt, hfj]

/-- Witness for `undecodable_bytes_passthrough_or_raise`: GIF-classified
undecodable bytes make the attempt raise, and the aggregation still counts it
as a not-ok attempt with the camera's label. -/
theorem undecodable_bytes_passthrough_or_raise_witness :
    isGifClassified [71, 73, 70, 56, 9] (some "image/gif") (some "http://cam/img.jpg") = true ∧
    capture_and_record libNone envGifW camA (initDayDb "camA" "chunk.json") tsW = none ∧
    aggregatePair libNone camA none = (false, camLabel libNone camA) := by
  refine ⟨by decide, ?_⟩
  exact (undecodable_bytes_passthrough_or_raise libNone envGifW camA
    (initDayDb "camA" "chunk.json") tsW "http://cam/img.jpg" [71, 73, 70, 56, 9]
    (some "image/gif") (by decide) (by decide) (by decide) (by decide) (by decide)
    (by decide)).2 (by decide)

/-! ## Claim C3: cohort size per cycle -/

/-- C3 counterexample: a cohort of 7 loaded cameras is truncated by
`cams = cams[:6]` — only 6 attempts are issued, the summary denominator is 6,
and the seventh camera is never attempted. -/
theorem cohort_truncation_counterexample :
    cams7.length = 7 ∧
    (run_loop_cycle libNone tsW cams7 "chunk.json" (fun _ => envOkW)).den = 6 ∧
    (run_loop_cycle libNone tsW cams7 "chunk.json" (fun _ => envOkW)).attempted =
      [camN 0, camN 1, camN 2, camN 3, camN 4, camN 5] ∧
    camN 6 ∉ (run_loop_cycle libNone tsW cams7 "chunk.json" (fun _ => envOkW)).attempted := by
  refine ⟨by decide, by decide, by decide, by decide⟩

/-- C3 amended: each cycle issues exactly one attempt per camera among the
first `min 6 n` cameras of the cohort (`cams[:6]`), and the summary
denominator equals `min 6 n`; for cohorts of size ≤ 6 every camera is
attempted and the denominator equals the cohort size. -/
theorem cycle_attempts_first_six {Img : Type} (lib : PyExternal Img) (ts : VnDateTime)
    (cams : List CamDesc) (cf : String) (envOf : CamDesc → CamEnv) :
    (run_loop_cycle lib ts cams cf envOf).attempted = cams.take 6 ∧
    (run_loop_cycle lib ts cams cf envOf).den = min 6 cams.length ∧
    (run_loop_cycle lib ts cams cf envOf).results.length = min 6 cams.length ∧
    (cams.length ≤ 6 →
      (run_loop_cycle lib ts cams cf envOf).attempted = cams ∧
      (run_loop_cycle lib ts cams cf envOf).den = cams.length) := by
  refine ⟨?_, ?_, ?_, ?_⟩
  · simp [run_loop_cycle, runCycle, List.map_map, Function.comp_def]
  · simp [run_loop_cycle, runCycle, List.length_take]
  · simp [run_loop_cycle, runCycle, List.length_take]
  · intro hle
    constructor
    · simp [run_loop_cycle, runCycle, List.map_map, Function.comp_def,
        List.take_of_length_le hle]
    · simp [run_loop_cycle, runCycle, List.length_take, Nat.min_eq_right hle]

/-- Witness for `cycle_attempts_first_six`: a three-camera cohort is fully
attempted with denominator 3. -/
theorem cycle_attempts_first_six_witness :
    (run_loop_cycle libNone tsW [camA, camB, camC] "chunk.json" (fun _ => envOkW)).attempted =
      [camA, camB, camC] ∧
    (run_loop_cycle libNone tsW [camA, camB, camC] "chunk.json" (fun _ => envOkW)).den = 3 :=
  (cycle_attempts_first_six libNone tsW [camA, camB, camC] "chunk.json"
    (fun _ => envOkW)).2.2.2 (by decide)

/-! ## Claim C7: failure isolation within one cycle -/

theorem runCycle_results {Img : Type} (lib : PyExternal Img) (ts : VnDateTime)
    (inputs : List CamCycleInput) :
    (runCycle lib ts inputs).results =
      inputs.map (fun i => capture_and_record lib i.env i.cam i.sink ts) := rfl

theorem runCycle_oks {Img : Type} (lib : PyExternal Img) (ts : VnDateTime)
    (inputs : List CamCycleInput) :
    (runCycle lib ts inputs).oks = inputs.map (attemptOk lib ts) := by
  unfold runCycle
  simp only []
  have h := List.zip_map'
    (fun i : CamCycleInput => capture_and_record lib i.env i.cam i.sink ts) id inputs
  rw [List.map_id] at h
  rw [h, List.map_map, List.map_map]
  apply List.map_congr_left
  intro i _
  simp only [Function.comp_apply, attemptOk]
  cases capture_and_record lib i.env i.cam i.sink ts with
  | none => rfl
  | some t => rfl

theorem runCycle_den {Img : Type} (lib : PyExternal Img) (ts : VnDateTime)
    (inputs : List CamCycleInput) :
    (runCycle lib ts inputs).den = inputs.length := by
  have h : (runCycle lib ts inputs).den = (runCycle lib ts inputs).oks.length := rfl
  rw [h, runCycle_oks, List.length_map]

theorem runCycle_okTotal {Img : Type} (lib : PyExternal Img) (ts : VnDateTime)
    (inputs : List CamCycleInput) :
    (runCycle lib ts inputs).okTotal =
      (inputs.map (attemptOk lib ts)).countP (fun b => b) := by
  have h : (runCycle lib ts inputs).okTotal =
      (runCycle lib ts inputs).oks.countP (fun b => b) := rfl
  rw [h, runCycle_oks]

/-- C7. Failure isolation within one cycle: replacing one camera's slot leaves
every other camera's gathered result and aggregated ok-flag unchanged; a
failed attempt (exception or ok=false) is aggregated as `false` at its own
position; `ok_total` counts exactly the successful attempts and the
denominator is the whole cohort, so the loop survives any single failure. -/
theorem cycle_failure_isolation {Img : Type} (lib : PyExternal Img) (ts : VnDateTime)
    (pre post : List CamCycleInput) (x x' : CamCycleInput)
    (hfail : attemptOk lib ts x = false) :
    (runCycle lib ts (pre ++ x :: post)).oks.take pre.length =
      (runCycle lib ts (pre ++ x' :: post)).oks.take pre.length ∧
    (runCycle lib ts (pre ++ x :: post)).oks.drop (pre.length + 1) =
      (runCycle lib ts (pre ++ x' :: post)).oks.drop (pre.length + 1) ∧
    (runCycle lib ts (pre ++ x :: post)).results.take pre.length =
      (runCycle lib ts (pre ++ x' :: post)).results.take pre.length ∧
    (runCycle lib ts (pre ++ x :: post)).results.drop (pre.length + 1) =
      (runCycle lib ts (pre ++ x' :: post)).results.drop (pre.length + 1) ∧
    (runCycle lib ts (pre ++ x :: post)).oks[pre.length]? = some false ∧
    (runCycle lib ts (pre ++ x :: post)).okTotal =
      ((pre ++ x :: post).map (attemptOk lib ts)).countP (fun b => b) ∧
    (runCycle lib ts (pre ++ x :: post)).den = (pre ++ x :: post).length := by
  have htake : ∀ {α : Type} (g : CamCycleInput → α) (y : CamCycleInput),
      ((pre ++ y :: post).map g).take pre.length = pre.map g := by
    intro α g y
    rw [List.map_append, List.map_cons]
    exact List.take_left' (by simp)
  have hdrop : ∀ {α : Type} (g : CamCycleInput → α) (y : CamCycleInput),
      ((pre ++ y :: post).map g).drop (pre.length + 1) = post.map g := by
    intro α g y
    rw [List.map_append, List.map_cons,
      show pre.map g ++ g y :: post.map g = (pre.map g ++ [g y]) ++ post.map g by simp]
    exact List.drop_left' (by simp)
  have hget : ∀ {α : Type} (g : CamCycleInput → α) (y : CamCycleInput),
      ((pre ++ y :: post).map g)[pre.length]? = some (g y) := by
    intro α g y
    rw [List.map_append, List.map_cons, List.getElem?_append_right (by simp)]
    simp
  refine ⟨?_, ?_, ?_, ?_, ?_, ?_, ?_⟩
  · rw [runCycle_oks, runCycle_oks, htake, htake]
  · rw [runCycle_oks, runCycle_oks, hdrop, hdrop]
  · rw [runCycle_results, runCycle_results, htake, htake]
  · rw [runCycle_results, runCycle_results, hdrop, hdrop]
  · rw [runCycle_oks, hget, hfail]
  · exact runCycle_okTotal lib ts (pre ++ x :: post)
  · exact runCycle_den lib ts (pre ++ x :: post)

/-- Witness for `cycle_failure_isolation`: in a three-camera cohort where
camera B's fetch always fails, B is counted not-ok while the other entries
match a cycle where B's slot is replaced, and the summary is 2/3. -/
theorem cycle_failure_isolation_witness :
    (runCycle libNone tsW
      [⟨camA, envOkW, initDayDb "camA" "c.json"⟩,
       ⟨camB, envFetchFailW, initDayDb "camB" "c.json"⟩,
       ⟨camC, envOkW, initDayDb "camC" "c.json"⟩]).oks[1]? = some false ∧
    (runCycle libNone tsW
      [⟨camA, envOkW, initDayDb "camA" "c.json"⟩,
       ⟨camB, envFetchFailW, initDayDb "camB" "c.json"⟩,
       ⟨camC, envOkW, initDayDb "camC" "c.json"⟩]).okTotal = 2 ∧
    (runCycle libNone tsW
      [⟨camA, envOkW, initDayDb "camA" "c.json"⟩,
       ⟨camB, envFetchFailW, initDayDb "camB" "c.json"⟩,
       ⟨camC, envOkW, initDayDb "camC" "c.json"⟩]).den = 3 := by
  have h := cycle_failure_isolation libNone tsW
    [⟨camA, envOkW, initDayDb "camA" "c.json"⟩] [⟨camC, envOkW, initDayDb "camC" "c.json"⟩]
    ⟨camB, envFetchFailW, initDayDb "camB" "c.json"⟩
    ⟨camB, envFetchFailW, initDayDb "camB" "c.json"⟩ (by decide)
  exact ⟨h.2.2.2.2.1, h.2.2.2.2.2.1.trans (by decide), h.2.2.2.2.2.2⟩

/-! ## Claims C1 and C5: storage engine -/

theorem lookupFile_cons_ne (p : String × List FrameRow) (l : List (String × List FrameRow))
    (d : String) (h : p.1 ≠ d) : lookupFile (p :: l) d = lookupFile l d := by
  unfold lookupFile
  rw [List.find?_cons_of_neg _ (by simpa using h)]

theorem lookupFile_setFile : ∀ (files : List (String × List FrameRow)) (d : String)
    (tbl : List FrameRow), lookupFile (setFile files d tbl) d = tbl
  | [], d, tbl => by simp [setFile, lookupFile, List.find?]
  | p :: rest, d, tbl => by
    unfold setFile
    by_cases h : p.1 = d
    · rw [if_pos h]
      simp [lookupFile, List.find?]
    · rw [if_neg h]
      rw [lookupFile_cons_ne _ _ _ h]
      exact lookupFile_setFile rest d tbl

theorem ensure_open_files (s : DayDb) (d : String) :
    (s.ensure_open_for_today d).1.files = s.files := by
  unfold DayDb.ensure_open_for_today DayDb.open_conn_for_date
  split <;> rfl

theorem upsert_one_files (s : DayDb) (row : RowDict) :
    (s.upsert_one row).1.files =
      setFile s.files row.ts_vn.dateStr
        (upsertFrames (lookupFile s.files row.ts_vn.dateStr) (payloadOf row)) := by
  have h := ensure_open_files s row.ts_vn.dateStr
  unfold DayDb.upsert_one
  rcases he : s.ensure_open_for_today row.ts_vn.dateStr with ⟨s1, evs⟩
  rw [he] at h
  simp only at h
  simp [he, h]

theorem lookup_upsert_one (s : DayDb) (row : RowDict) :
    lookupFile (s.upsert_one row).1.files row.ts_vn.dateStr =
      upsertFrames (lookupFile s.files row.ts_vn.dateStr) (payloadOf row) := by
  rw [upsert_one_files, lookupFile_setFile]

theorem countP_map_overwrite (tbl : List FrameRow) (r : FrameRow) :
    (tbl.map (fun q => if keyMatch q r.cam_id r.ts_vn_ms then overwriteNonKey q r else q)).countP
      (fun q => keyMatch q r.cam_id r.ts_vn_ms) =
    tbl.countP (fun q => keyMatch q r.cam_id r.ts_vn_ms) := by
  induction tbl with
  | nil => rfl
  | cons a t ih =>
    by_cases h : keyMatch a r.cam_id r.ts_vn_ms = true
    · have ha : a.cam_id = r.cam_id ∧ a.ts_vn_ms = r.ts_vn_ms := by
        simpa [keyMatch] using h
      have hov : keyMatch (overwriteNonKey a r) r.cam_id r.ts_vn_ms = true := by
        simp [keyMatch, overwriteNonKey, ha.1, ha.2]
      simp [List.countP_cons, h, hov, ih]
    · have h' : keyMatch a r.cam_id r.ts_vn_ms = false := Bool.not_eq_true _ ▸ by simpa using h
      simp [List.countP_cons, h', ih]

theorem upsertFrames_countP (tbl : List FrameRow) (r : FrameRow) (cam : String) (ms : Int)
    (hcam : r.cam_id = cam) (hms : r.ts_vn_ms = ms)
    (hinv : tbl.countP (fun q => keyMatch q cam ms) ≤ 1) :
    (upsertFrames tbl r).countP (fun q => keyMatch q cam ms) = 1 := by
  subst hcam
  subst hms
  unfold upsertFrames
  by_cases h : tbl.any (fun q => keyMatch q r.cam_id r.ts_vn_ms) = true
  · rw [if_pos h, countP_map_overwrite]
    have hpos : 0 < tbl.countP (fun q => keyMatch q r.cam_id r.ts_vn_ms) := by
      rw [List.countP_pos_iff]
      obtain ⟨a, ha, hk⟩ := List.any_eq_true.1 h
      exact ⟨a, ha, hk⟩
    omega
  · rw [if_neg h, List.countP_append]
    have h0 : tbl.countP (fun q => keyMatch q r.cam_id r.ts_vn_ms) = 0 := by
      rw [List.countP_eq_zero]
      intro a ha hk
      exact h (List.any_eq_true.2 ⟨a, ha, hk⟩)
    have h1 : List.countP (fun q => keyMatch q r.cam_id r.ts_vn_ms) [r] = 1 := by
      simp [List.countP_cons, keyMatch]
    omega

theorem mem_upsertFrames_matching (tbl : List FrameRow) (r q : FrameRow)
    (cam : String) (ms : Int) (hcam : r.cam_id = cam) (hms : r.ts_vn_ms = ms)
    (hq : q ∈ upsertFrames tbl r) (hk : keyMatch q cam ms = true) : q = r := by
  subst hcam
  subst hms
  unfold upsertFrames at hq
  by_cases h : tbl.any (fun p => keyMatch p r.cam_id r.ts_vn_ms) = true
  · rw [if_pos h] at hq
    rw [List.mem_map] at hq
    obtain ⟨q0, _, heq⟩ := hq
    by_cases hk0 : keyMatch q0 r.cam_id r.ts_vn_ms = true
    · rw [if_pos hk0] at heq
      subst heq
      have hq0 : q0.cam_id = r.cam_id ∧ q0.ts_vn_ms = r.ts_vn_ms := by
        simpa [keyMatch] using hk0
      unfold overwriteNonKey
      rw [hq0.1, hq0.2]
    · rw [if_neg hk0] at heq
      subst heq
      exact absurd hk hk0
  · rw [if_neg h] at hq
    rw [List.mem_append] at hq
    rcases hq with hq | hq
    · exact absurd (List.any_eq_true.2 ⟨q, hq, hk⟩) h
    · simpa using hq

theorem find?_eq_of_unique (p : FrameRow → Bool) (l : List FrameRow) (x : FrameRow)
    (hc : l.countP p = 1) (hall : ∀ q ∈ l, p q = true → q = x) :
    l.find? p = some x := by
  induction l with
  | nil => simp [List.countP_nil] at hc
  | cons a t ih =>
    by_cases hpa : p a = true
    · rw [List.find?_cons_of_pos _ hpa, hall a (List.mem_cons_self a t) hpa]
    · rw [List.find?_cons_of_neg _ hpa]
      apply ih
      · rw [List.countP_cons] at hc
        simpa [hpa] using hc
      · intro q hq hpq
        exact hall q (List.mem_cons_of_mem _ hq) hpq

/-- C1. Upserting twice under the same `(cam_id, ts_vn_ms)` key (the same
capture timestamp) into a table satisfying the unique-index invariant leaves
exactly one row for that key, and that row is the second write's payload in
every column — last-write-wins. The upsert is the single table transformation
`upsertFrames` (the one-statement `INSERT ... ON CONFLICT DO UPDATE`), not a
separate read followed by a write. -/
theorem upsert_last_write_wins (s : DayDb) (r1 r2 : RowDict)
    (hcam : r1.cam_id = r2.cam_id) (hts : r1.ts_vn = r2.ts_vn)
    (hinv : (lookupFile s.files r2.ts_vn.dateStr).countP
        (fun q => keyMatch q r2.cam_id r2.ts_vn.epochMs) ≤ 1) :
    (lookupFile ((s.upsert_one r1).1.upsert_one r2).1.files r2.ts_vn.dateStr).countP
        (fun q => keyMatch q r2.cam_id r2.ts_vn.epochMs) = 1 ∧
    (lookupFile ((s.upsert_one r1).1.upsert_one r2).1.files r2.ts_vn.dateStr).find?
        (fun q => keyMatch q r2.cam_id r2.ts_vn.epochMs) = some (payloadOf r2) := by
  have hms : r1.ts_vn.epochMs = r2.ts_vn.epochMs := by rw [hts]
  have hd : r1.ts_vn.dateStr = r2.ts_vn.dateStr := by rw [hts]
  have hT2 := lookup_upsert_one (s.upsert_one r1).1 r2
  have hT1 := lookup_upsert_one s r1
  rw [hd] at hT1
  have hc1 : (lookupFile (s.upsert_one r1).1.files r2.ts_vn.dateStr).countP
      (fun q => keyMatch q r2.cam_id r2.ts_vn.epochMs) = 1 := by
    rw [hT1]
    exact upsertFrames_countP _ (payloadOf r1) r2.cam_id r2.ts_vn.epochMs
      (by simp [payloadOf, hcam]) (by simp [payloadOf, hms]) hinv
  constructor
  · rw [hT2]
    exact upsertFrames_countP _ (payloadOf r2) r2.cam_id r2.ts_vn.epochMs rfl rfl (le_of_eq hc1)
  · rw [hT2]
    apply find?_eq_of_unique
    · exact upsertFrames_countP _ (payloadOf r2) r2.cam_id r2.ts_vn.epochMs rfl rfl (le_of_eq hc1)
    · intro q hq hk
      exact mem_upsertFrames_matching _ (payloadOf r2) q r2.cam_id r2.ts_vn.epochMs rfl rfl hq hk

/-- Witness for `upsert_last_write_wins`: two writes at the same key with
different payloads leave one row equal to the second payload. -/
theorem upsert_last_write_wins_witness :
    (lookupFile (((initDayDb "camA" "c.json").upsert_one rowW1).1.upsert_one
        rowW2).1.files tsW.dateStr).countP
      (fun q => keyMatch q "camA" tsW.epochMs) = 1 ∧
    (lookupFile (((initDayDb "camA" "c.json").upsert_one rowW1).1.upsert_one
        rowW2).1.files tsW.dateStr).find?
      (fun q => keyMatch q "camA" tsW.epochMs) = some (payloadOf rowW2) :=
  upsert_last_write_wins (initDayDb "camA" "c.json") rowW1 rowW2 rfl rfl (by decide)

/-- C5. The `DayDb` partition state machine: a write dated `d'` against a
store open for `d ≠ d'` emits `connClose` strictly before `connOpen d'`
(then schema ensure and commits) and leaves the store open for `d'`;
`close` on an already-closed store is a no-op emitting no events; and a
write after `close` reopens the store for the write's date automatically. -/
theorem day_partition_state_machine (s : DayDb) (d d' : String) (row : RowDict)
    (hopen : s.connOpen = true) (hdate : s.current_date_str = some d)
    (hrow : row.ts_vn.dateStr = d') (hne : d' ≠ d) :
    ((s.upsert_one row).2 =
        [DbEvent.connClose, DbEvent.connOpen d', DbEvent.schemaEnsure,
          DbEvent.commit, DbEvent.commit] ∧
      (s.upsert_one row).1.connOpen = true ∧
      (s.upsert_one row).1.current_date_str = some d') ∧
    (DayDb.close (DayDb.close s).1 = ((DayDb.close s).1, []) ∧
      (DayDb.close s).1.connOpen = false) ∧
    (((DayDb.close s).1.upsert_one row).1.connOpen = true ∧
      ((DayDb.close s).1.upsert_one row).1.current_date_str = some d') := by
  have hens : s.ensure_open_for_today d' =
      ({ s with connOpen := true, current_date_str := some d' },
        [DbEvent.connClose, DbEvent.connOpen d', DbEvent.schemaEnsure, DbEvent.commit]) := by
    unfold DayDb.ensure_open_for_today DayDb.open_conn_for_date
    rw [if_neg (by rw [hdate, hopen]; simp; exact fun h => hne h.symm)]
    rw [hopen]
    rfl
  refine ⟨?_, ⟨rfl, rfl⟩, rfl, ?_⟩
  · unfold DayDb.upsert_one
    simp [hrow, hens]
  · show (((DayDb.close s).1.upsert_one row).1.current_date_str = some d')
    rw [← hrow]
    rfl

/-- Witness for `day_partition_state_machine`: a store open for 2025-01-01
receiving a write dated 2025-01-02 closes before reopening, and a write after
`close` reopens for the write's date. -/
theorem day_partition_state_machine_witness :
    (dayDbOpenW.upsert_one rowW3).2 =
      [DbEvent.connClose, DbEvent.connOpen "2025-01-02", DbEvent.schemaEnsure,
        DbEvent.commit, DbEvent.commit] ∧
    (DayDb.close (DayDb.close dayDbOpenW).1).1.connOpen = false ∧
    ((DayDb.close dayDbOpenW).1.upsert_one rowW3).1.current_date_str = some "2025-01-02" := by
  have h := day_partition_state_machine dayDbOpenW "2025-01-01" "2025-01-02" rowW3
    rfl rfl rfl (by decide)
  exact ⟨h.1.1, by decide, h.2.2.2⟩

/-! ## Claims C8 and C9: the exporter -/

theorem exportRows_fs_grows (pc : ParseCtx) (b64dec : String → Option (List Nat))
    (cam dc : String) : ∀ (rows : List ExportRow) (fs : List String)
    (tot t : ExportTotals) (fs1 : List String),
    exportRows pc b64dec cam dc fs tot rows = .ok (t, fs1) → fs <+: fs1 := by
  intro rows
  induction rows with
  | nil =>
    intro fs tot t fs1 h
    simp [exportRows] at h
    rw [← h.2]
  | cons row rest ih =>
    intro fs tot t fs1 h
    unfold exportRows at h
    cases hp : parse_ts pc row.tsMs row.tsIso with
    | error e => rw [hp] at h; exact absurd h (by simp)
    | ok ts =>
      rw [hp] at h
      simp only [] at h
      by_cases hmem : exportFilename cam dc row ts ∈ fs
      · rw [if_pos hmem] at h
        exact ih _ _ _ _ h
      · rw [if_neg hmem] at h
        by_cases hemp : exportPayload b64dec row = []
        · rw [if_pos hemp] at h
          exact ih _ _ _ _ h
        · rw [if_neg hemp] at h
          exact (List.prefix_append fs _).trans (ih _ _ _ _ h)

theorem exportRows_total_ok (pc : ParseCtx) (b64dec : String → Option (List Nat))
    (cam dc : String) : ∀ (rows : List ExportRow) (fs : List String)
    (tot t : ExportTotals) (fs1 : List String),
    exportRows pc b64dec cam dc fs tot rows = .ok (t, fs1) →
    t.total_ok = tot.total_ok + rows.length := by
  intro rows
  induction rows with
  | nil =>
    intro fs tot t fs1 h
    simp [exportRows] at h
    rw [← h.1]
    simp
  | cons row rest ih =>
    intro fs tot t fs1 h
    unfold exportRows at h
    cases hp : parse_ts pc row.tsMs row.tsIso with
    | error e => rw [hp] at h; exact absurd h (by simp)
    | ok ts =>
      rw [hp] at h
      simp only [] at h
      by_cases hmem : exportFilename cam dc row ts ∈ fs
      · rw [if_pos hmem] at h
        have := ih _ _ _ _ h
        simp at this
        simp [this]
        omega
      · rw [if_neg hmem] at h
        by_cases hemp : exportPayload b64dec row = []
        · rw [if_pos hemp] at h
          have := ih _ _ _ _ h
          simp at this
          simp [this]
          omega
        · rw [if_neg hemp] at h
          have := ih _ _ _ _ h
          simp at this
          simp [this]
          omega

theorem exportRows_rerun (pc : ParseCtx) (b64dec : String → Option (List Nat))
    (cam dc : String) : ∀ (rows : List ExportRow) (fs : List String)
    (tot t : ExportTotals) (fs1 : List String),
    exportRows pc b64dec cam dc fs tot rows = .ok (t, fs1) →
    ∀ tot2 : ExportTotals, exportRows pc b64dec cam dc fs1 tot2 rows =
      .ok ({ exported := tot2.exported, skipped := tot2.skipped + rows.length,
             total_ok := tot2.total_ok + rows.length }, fs1) := by
  intro rows
  induction rows with
  | nil =>
    intro fs tot t fs1 h tot2
    simp [exportRows] at h
    cases tot2
    simp [exportRows, ← h.2]
  | cons row rest ih =>
    intro fs tot t fs1 h tot2
    have h1 : tot2.skipped + 1 + rest.length = tot2.skipped + (rest.length + 1) := by omega
    have h2 : tot2.total_ok + 1 + rest.length = tot2.total_ok + (rest.length + 1) := by omega
    unfold exportRows at h
    cases hp : parse_ts pc row.tsMs row.tsIso with
    | error e => rw [hp] at h; exact absurd h (by simp)
    | ok ts =>
      rw [hp] at h
      simp only [] at h
      unfold exportRows
      rw [hp]
      simp only []
      by_cases hmem : exportFilename cam dc row ts ∈ fs
      · rw [if_pos hmem] at h
        have hmem1 : exportFilename cam dc row ts ∈ fs1 :=
          (exportRows_fs_grows pc b64dec cam dc rest fs _ t fs1 h).subset hmem
        rw [if_pos hmem1, ih _ _ _ _ h]
        simp [List.length_cons, h1, h2]
      · rw [if_neg hmem] at h
        by_cases hemp : exportPayload b64dec row = []
        · rw [if_pos hemp] at h
          by_cases hmem1 : exportFilename cam dc row ts ∈ fs1
          · rw [if_pos hmem1, ih _ _ _ _ h]
            simp [List.length_cons, h1, h2]
          · rw [if_neg hmem1, if_pos hemp, ih _ _ _ _ h]
            simp [List.length_cons, h1, h2]
        · rw [if_neg hemp] at h
          have hmem1 : exportFilename cam dc row ts ∈ fs1 :=
            (exportRows_fs_grows pc b64dec cam dc rest (fs ++ [exportFilename cam dc row ts])
              _ t fs1 h).subset (by simp)
          rw [if_pos hmem1, ih _ _ _ _ h]
          simp [List.length_cons, h1, h2]

/-- C8. Re-running the exporter against the same selected rows and the file
set produced by a successful first run writes nothing: the file set is
unchanged and the second run reports `exported = 0` and
`skipped = total_ok` (every row is skipped because its destination file
already exists or its payload is empty); `total_ok` equals the number of
selected rows on both runs. -/
theorem export_rerun_idempotent (pc : ParseCtx) (b64dec : String → Option (List Nat))
    (cam dc : String) (fs : List String) (rows : List ExportRow)
    (tot1 : ExportTotals) (fs1 : List String)
    (h : export_sqlite pc b64dec cam dc fs rows = .ok (tot1, fs1)) :
    export_sqlite pc b64dec cam dc fs1 rows =
      .ok ({ exported := 0, skipped := tot1.total_ok, total_ok := tot1.total_ok }, fs1) ∧
    tot1.total_ok = rows.length := by
  unfold export_sqlite at h ⊢
  have hn := exportRows_total_ok pc b64dec cam dc rows fs _ tot1 fs1 h
  simp only at hn
  have hlen : tot1.total_ok = rows.length := by simpa using hn
  have hr := exportRows_rerun pc b64dec cam dc rows fs _ tot1 fs1 h
    { exported := 0, skipped := 0, total_ok := 0 }
  rw [hr]
  simp [hlen]

/-- Witness for `export_rerun_idempotent`: one exported row and one
empty-payload row; the second run reports `exported=0, skipped=2=total_ok`
and leaves the file set unchanged. -/
theorem export_rerun_idempotent_witness :
    export_sqlite pcW b64W "camA" "20250101" [] [rowOkW, rowEmptyW] =
      .ok ({ exported := 1, skipped := 1, total_ok := 2 },
        ["camA__a1__20250101__120000__abcdef01.jpg"]) ∧
    export_sqlite pcW b64W "camA" "20250101"
        ["camA__a1__20250101__120000__abcdef01.jpg"] [rowOkW, rowEmptyW] =
      .ok ({ exported := 0, skipped := 2, total_ok := 2 },
        ["camA__a1__20250101__120000__abcdef01.jpg"]) :=
  ⟨by rfl,
   (export_rerun_idempotent pcW b64W "camA" "20250101" [] [rowOkW, rowEmptyW]
      { exported := 1, skipped := 1, total_ok := 2 }
      ["camA__a1__20250101__120000__abcdef01.jpg"] (by rfl)).1⟩

theorem exportRows_error_of_bad_ts (pc : ParseCtx) (b64dec : String → Option (List Nat))
    (cam dc : String) (r : ExportRow)
    (hbad : parse_ts pc r.tsMs r.tsIso = .error (tsErrMsg r.tsMs r.tsIso)) :
    ∀ (rows : List ExportRow) (fs : List String) (tot : ExportTotals), r ∈ rows →
    ∃ e, exportRows pc b64dec cam dc fs tot rows = .error e := by
  intro rows
  induction rows with
  | nil => intro fs tot h; simp at h
  | cons row rest ih =>
    intro fs tot hmem
    rcases List.mem_cons.1 hmem with rfl | hmem
    · exact ⟨tsErrMsg r.tsMs r.tsIso, by unfold exportRows; rw [hbad]⟩
    · unfold exportRows
      cases hp : parse_ts pc row.tsMs row.tsIso with
      | error e => exact ⟨e, rfl⟩
      | ok ts =>
        simp only []
        by_cases hm : exportFilename cam dc row ts ∈ fs
        · rw [if_pos hm]
          exact ih _ _ hmem
        · rw [if_neg hm]
          by_cases hemp : exportPayload b64dec row = []
          · rw [if_pos hemp]
            exact ih _ _ hmem
          · rw [if_neg hemp]
            exact ih _ _ hmem

/-- C9. A selected row whose timestamp is unparseable under both
representations makes the whole export raise: the run returns the error (the
`ValueError` of `parse_ts`) and no `(exported, skipped, total_ok)` totals
tuple is returned for the invocation. -/
theorem export_aborts_on_unparseable_ts (pc : ParseCtx)
    (b64dec : String → Option (List Nat)) (cam dc : String) (fs : List String)
    (rows : List ExportRow) (r : ExportRow) (hmem : r ∈ rows)
    (hbad : parse_ts pc r.tsMs r.tsIso = .error (tsErrMsg r.tsMs r.tsIso)) :
    ∃ e, export_sqlite pc b64dec cam dc fs rows = .error e ∧
      ∀ res : ExportTotals × List String,
        export_sqlite pc b64dec cam dc fs rows ≠ .ok res := by
  unfold export_sqlite
  obtain ⟨e, he⟩ := exportRows_error_of_bad_ts pc b64dec cam dc r hbad rows fs
    { exported := 0, skipped := 0, total_ok := 0 } hmem
  refine ⟨e, he, ?_⟩
  intro res hres
  rw [he] at hres
  exact absurd hres (by simp)

/-- Witness for `export_aborts_on_unparseable_ts`: a batch containing a row
with garbage in both timestamp columns aborts with the `parse_ts` error. -/
theorem export_aborts_on_unparseable_ts_witness :
    ∃ e, export_sqlite pcW b64W "camA" "20250101" [] [rowOkW, rowBadTsW] = .error e ∧
      ∀ res : ExportTotals × List String,
        export_sqlite pcW b64W "camA" "20250101" [] [rowOkW, rowBadTsW] ≠ .ok res :=
  export_aborts_on_unparseable_ts pcW b64W "camA" "20250101" [] [rowOkW, rowBadTsW]
    rowBadTsW (by decide) (by rfl)
